import Mathlib

/-!
Shallow embedding of the eho-horizon dashboard code:
  * `openstack_dashboard/usage/base.py` — usage reporting (`BaseUsage.summarize`,
    `BaseUsage.get_start` / `get_end` / `get_date_range`, `ProjectUsage.get_usage_list`,
    CSV rendering via `BaseCsvResponse` and `BaseCsvStreamingResponse`);
  * `openstack_dashboard/dashboards/project/hadoop/tables.py` — table actions
    (`TerminateInstance.allowed`, `DeleteTemplate.action`, `TerminateCluster.action`,
    `CreateCluster`).

Python dicts holding the usage summary are modelled as insertion-ordered
association lists; datetimes as integer (or natural) second counts; the
externally supplied `get_usage_list` method as an `Except` value describing
the outcome of that call; the messages and API calls the code emits as
explicit effect values returned alongside the new state.
-/

namespace EhoHorizon

/-! ### Python dict model (insertion-ordered association list)

`self.summary` in `BaseUsage` is a Python dict from string keys to numbers.
The operations used by `summarize` are lookup, `setdefault(key, 0)` and
`summary[key] += value`. -/

/-- Dict lookup: the first binding of the key (dict keys are unique, so the
first binding is the binding). -/
def dictGet : List (String × Int) → String → Option Int
  | [], _ => none
  | p :: rest, k => if p.1 == k then some p.2 else dictGet rest k

/-- Whether the dict has a binding for the key (`key in d`). -/
def dictHas : List (String × Int) → String → Bool
  | [], _ => false
  | p :: rest, k => p.1 == k || dictHas rest k

/-- `d.setdefault(k, v)`: if `k` is absent, insert `(k, v)` at the end
(Python dicts preserve insertion order); otherwise leave `d` unchanged. -/
def dictSetdefault (d : List (String × Int)) (k : String) (v : Int) :
    List (String × Int) :=
  if dictHas d k then d else d ++ [(k, v)]

/-- `d[k] += v` on a key that is present: add `v` to the binding of `k`. -/
def dictAddAt : List (String × Int) → String → Int → List (String × Int)
  | [], _, _ => []
  | p :: rest, k, v =>
    (if p.1 == k then (p.1, p.2 + v) else p) :: dictAddAt rest k v

/-- One iteration of the inner loop of `BaseUsage.summarize`:
`self.summary.setdefault(key, 0); self.summary[key] += value`. -/
def addItem (d : List (String × Int)) (kv : String × Int) :
    List (String × Int) :=
  dictAddAt (dictSetdefault d kv.1 0) kv.1 kv.2

/-! ### The usage data model and `BaseUsage.summarize` -/

/-- A project usage object as `summarize` sees it: `summaryItems` models the
pairs of `project_usage.get_summary().items()`, in iteration order. -/
structure ProjectUsageData where
  summaryItems : List (String × Int)
deriving DecidableEq

/-- The mutable attributes of `BaseUsage` that `summarize` touches. -/
structure UsageState where
  summary : List (String × Int)
  usage_list : List ProjectUsageData
deriving DecidableEq

/-- User-facing messages `summarize` can emit. -/
inductive UsageMsg where
  /-- `messages.info(..., "You are viewing data for the future, ...")` -/
  | infoFuture
  /-- `exceptions.handle(..., 'Unable to retrieve usage information.')` -/
  | errorUnableUsage
deriving DecidableEq

/-- Result of one `summarize` call: the new object state, the messages shown,
and whether `self.get_usage_list` (the compute API) was invoked. -/
structure SummarizeOutcome where
  state : UsageState
  messages : List UsageMsg
  apiCalled : Bool
deriving DecidableEq

/-- The aggregation loop at the end of `BaseUsage.summarize`:
for each project usage, for each `(key, value)` of its summary,
`setdefault(key, 0)` then `summary[key] += value`. -/
def aggregate (usages : List ProjectUsageData) (d : List (String × Int)) :
    List (String × Int) :=
  usages.foldl (fun acc u => u.summaryItems.foldl addItem acc) d

/-- `BaseUsage.summarize(start, end)`.  `today` models `self.today`
(`timezone.now()`); `getUsageList` models the outcome of the
`self.get_usage_list(start, end)` call — its return value, or the exception it
raised.  Timezone `make_naive` conversions preserve the instant and are
identities in this model. -/
def summarize (today start endT : Int)
    (getUsageList : Except Unit (List ProjectUsageData))
    (s : UsageState) : SummarizeOutcome :=
  let branch :=
    if start ≤ endT ∧ endT ≤ today then
      match getUsageList with
      | Except.ok l => (l, ([] : List UsageMsg), true)
      | Except.error _ => (s.usage_list, [UsageMsg.errorUnableUsage], true)
    else
      (s.usage_list, [UsageMsg.infoFuture], false)
  { state := { summary := aggregate branch.1 s.summary, usage_list := branch.1 }
    messages := branch.2.1
    apiCalled := branch.2.2 }

/-! ### Sums of a key's values, for stating the aggregation property -/

/-- Sum of the values bound to `k` in one summary's item list. -/
def itemsSum (k : String) : List (String × Int) → Int
  | [] => 0
  | p :: rest => (if p.1 == k then p.2 else 0) + itemsSum k rest

/-- Whether `k` occurs among one summary's items. -/
def hasKey (k : String) : List (String × Int) → Bool
  | [] => false
  | p :: rest => p.1 == k || hasKey k rest

/-- Sum of `k`'s values over all project usages. -/
def totalSum (k : String) : List ProjectUsageData → Int
  | [] => 0
  | u :: rest => itemsSum k u.summaryItems + totalSum k rest

/-- Whether `k` appears in any project usage's summary. -/
def anyHasKey (k : String) : List ProjectUsageData → Bool
  | [] => false
  | u :: rest => hasKey k u.summaryItems || anyHasKey k rest

/-! ### Dict lemmas -/

lemma beq_false_of_ne {a b : String} (h : a ≠ b) : (a == b) = false :=
  beq_eq_false_iff_ne.mpr h

lemma dictGet_dictAddAt (d : List (String × Int)) (k0 : String) (v : Int)
    (k : String) :
    dictGet (dictAddAt d k0 v) k =
      if k = k0 then (dictGet d k0).map (fun x => x + v) else dictGet d k := by
  induction d with
  | nil => by_cases h : k = k0 <;> simp [dictGet, dictAddAt, h]
  | cons p rest ih =>
    simp only [dictAddAt]
    by_cases h2 : k = k0
    · subst h2
      by_cases h1 : p.1 = k
      · subst h1
        simp [dictGet]
      · simp [dictGet, ih, beq_false_of_ne h1]
    · by_cases h1 : p.1 = k0
      · subst h1
        have hne : (p.1 == k) = false := beq_false_of_ne (fun hh => h2 hh.symm)
        simp [dictGet, ih, h2, hne]
      · simp [dictGet, ih, h2, beq_false_of_ne h1]

lemma dictHas_eq_isSome (d : List (String × Int)) (k : String) :
    dictHas d k = (dictGet d k).isSome := by
  induction d with
  | nil => simp [dictHas, dictGet]
  | cons p rest ih =>
    by_cases h : p.1 = k <;> simp [dictHas, dictGet, h, ih]

lemma dictGet_append (d e : List (String × Int)) (k : String) :
    dictGet (d ++ e) k =
      if (dictGet d k).isSome then dictGet d k else dictGet e k := by
  induction d with
  | nil => simp [dictGet]
  | cons p rest ih =>
    by_cases h : p.1 = k <;> simp [dictGet, h, ih]

lemma dictGet_dictSetdefault (d : List (String × Int)) (k0 : String) (v : Int)
    (k : String) :
    dictGet (dictSetdefault d k0 v) k =
      if k = k0 then some ((dictGet d k0).getD v) else dictGet d k := by
  unfold dictSetdefault
  rw [dictHas_eq_isSome]
  by_cases hs : (dictGet d k0).isSome
  · rcases Option.isSome_iff_exists.mp hs with ⟨x, hx⟩
    rw [if_pos (by simp [hs])]
    by_cases h : k = k0 <;> simp [h, hx]
  · have hs0 : dictGet d k0 = none := Option.not_isSome_iff_eq_none.mp hs
    rw [if_neg (by simp [hs0]), dictGet_append]
    by_cases h : k = k0
    · subst h
      simp [hs0, dictGet]
    · have hne : (k0 == k) = false := beq_false_of_ne (fun hh => h hh.symm)
      by_cases h2 : (dictGet d k).isSome
      · simp [h, h2]
      · have h20 : dictGet d k = none := Option.not_isSome_iff_eq_none.mp h2
        simp [h, h2, h20, dictGet, hne]

lemma dictGet_addItem (d : List (String × Int)) (kv : String × Int)
    (k : String) :
    dictGet (addItem d kv) k =
      if k = kv.1 then some ((dictGet d kv.1).getD 0 + kv.2)
      else dictGet d k := by
  unfold addItem
  rw [dictGet_dictAddAt, dictGet_dictSetdefault]
  by_cases h : k = kv.1 <;> simp [h, dictGet_dictSetdefault]

lemma itemsSum_of_not_hasKey (k : String) (items : List (String × Int))
    (h : hasKey k items = false) : itemsSum k items = 0 := by
  induction items with
  | nil => simp [itemsSum]
  | cons p rest ih =>
    simp only [hasKey, Bool.or_eq_false_iff] at h
    simp [itemsSum, h.1, ih h.2]

lemma dictGet_foldl_addItem (items : List (String × Int))
    (d : List (String × Int)) (k : String) :
    dictGet (items.foldl addItem d) k =
      if hasKey k items then some ((dictGet d k).getD 0 + itemsSum k items)
      else dictGet d k := by
  induction items generalizing d with
  | nil => simp [hasKey, itemsSum]
  | cons p rest ih =>
    simp only [List.foldl_cons, ih, dictGet_addItem, hasKey, itemsSum]
    by_cases h : k = p.1
    · subst h
      by_cases hr : hasKey p.1 rest
      · simp [hr, add_assoc]
      · simp [hr, itemsSum_of_not_hasKey p.1 rest (by simpa using hr)]
    · have h2 : (p.1 == k) = false := beq_false_of_ne (fun hh => h hh.symm)
      by_cases hr : hasKey k rest <;> simp [h, h2, hr]

lemma totalSum_of_not_anyHasKey (k : String) (usages : List ProjectUsageData)
    (h : anyHasKey k usages = false) : totalSum k usages = 0 := by
  induction usages with
  | nil => simp [totalSum]
  | cons u rest ih =>
    simp only [anyHasKey, Bool.or_eq_false_iff] at h
    simp [totalSum, itemsSum_of_not_hasKey k _ h.1, ih h.2]

lemma dictGet_aggregate (usages : List ProjectUsageData)
    (d : List (String × Int)) (k : String) :
    dictGet (aggregate usages d) k =
      if anyHasKey k usages then some ((dictGet d k).getD 0 + totalSum k usages)
      else dictGet d k := by
  induction usages generalizing d with
  | nil => simp [aggregate, anyHasKey, totalSum]
  | cons u rest ih =>
    have step : aggregate (u :: rest) d =
        aggregate rest (u.summaryItems.foldl addItem d) := rfl
    rw [step, ih, dictGet_foldl_addItem]
    by_cases hu : hasKey k u.summaryItems
    · by_cases hr : anyHasKey k rest <;>
        simp [anyHasKey, totalSum, hu, hr, add_assoc,
          totalSum_of_not_anyHasKey]
    · by_cases hr : anyHasKey k rest <;>
        simp [anyHasKey, totalSum, hu, hr,
          itemsSum_of_not_hasKey k _ (by simpa using hu)]

/-! ### Claims about `BaseUsage.summarize` -/

/-- C1: for every date range with `start ≤ end ≤ today`, `BaseUsage.summarize`
aggregates per-project summaries: after the call, every key appearing in some
project usage's `get_summary()` is mapped by `self.summary` to its previous
value there (0 if absent) plus the sum of that key's values over all project
usages in `self.usage_list` (which is exactly the list the API call
returned). -/
theorem summarize_aggregates (today start endT : Int)
    (usages : List ProjectUsageData) (s : UsageState)
    (h1 : start ≤ endT) (h2 : endT ≤ today) (k : String)
    (hk : anyHasKey k usages = true) :
    (summarize today start endT (Except.ok usages) s).state.usage_list =
      usages ∧
    dictGet (summarize today start endT (Except.ok usages) s).state.summary k =
      some ((dictGet s.summary k).getD 0 + totalSum k usages) := by
  constructor
  · simp [summarize, h1, h2]
  · simp [summarize, h1, h2, dictGet_aggregate, hk]

/-- Witness for C1: two project usages reporting "vcpus" 2 and 3, previous
summary value 1, yield an aggregated value of 6. -/
theorem summarize_aggregates_witness :
    dictGet (summarize 10 0 5
        (Except.ok [⟨[("vcpus", 2)]⟩, ⟨[("vcpus", 3)]⟩])
        ⟨[("vcpus", 1)], []⟩).state.summary "vcpus" = some 6 :=
  ((summarize_aggregates 10 0 5 [⟨[("vcpus", 2)]⟩, ⟨[("vcpus", 3)]⟩]
      ⟨[("vcpus", 1)], []⟩ (by decide) (by decide) "vcpus" (by decide)).2).trans
    (by decide)

/-- C5: when the range fails `start ≤ end ≤ today`, `summarize` does not call
`get_usage_list` at all, emits only the "viewing data for the future" info
message, and — starting from the initial empty `usage_list` — leaves the
object state unchanged. -/
theorem summarize_future_no_api (today start endT : Int)
    (g : Except Unit (List ProjectUsageData)) (s : UsageState)
    (h : ¬ (start ≤ endT ∧ endT ≤ today)) (h0 : s.usage_list = []) :
    (summarize today start endT g s).apiCalled = false ∧
    (summarize today start endT g s).messages = [UsageMsg.infoFuture] ∧
    (summarize today start endT g s).state = s := by
  obtain ⟨sm, ul⟩ := s
  have h0' : ul = [] := h0
  subst h0'
  refine ⟨?_, ?_, ?_⟩ <;> simp [summarize, h, aggregate]

/-- Witness for C5: a future range (5, 3) against today = 0. -/
theorem summarize_future_no_api_witness :
    (summarize 0 5 3 (Except.ok []) ⟨[("x", 1)], []⟩).apiCalled = false ∧
    (summarize 0 5 3 (Except.ok []) ⟨[("x", 1)], []⟩).messages =
      [UsageMsg.infoFuture] ∧
    (summarize 0 5 3 (Except.ok []) ⟨[("x", 1)], []⟩).state =
      ⟨[("x", 1)], []⟩ :=
  summarize_future_no_api 0 5 3 (Except.ok []) ⟨[("x", 1)], []⟩
    (by decide) rfl

/-- C6 counterexample: with `start ≤ end ≤ today`, a failing `get_usage_list`
call and a non-empty previous `usage_list`, the aggregation loop at the end of
`summarize` still runs over the stale `usage_list`, so `self.summary` does
receive new contributions — the call is not atomic as claimed. -/
theorem summarize_error_not_atomic :
    (summarize 10 0 5 (Except.error ())
        ⟨[], [⟨[("vcpus", 1)]⟩]⟩).state.summary ≠
      (⟨[], [⟨[("vcpus", 1)]⟩]⟩ : UsageState).summary := by
  decide

/-- C6 (amended): on an exception from `get_usage_list` the error is reported
as 'Unable to retrieve usage information.' and `usage_list` keeps its previous
value, but the aggregation loop still folds the previous `usage_list` into
`summary`; only when the previous `usage_list` is empty (the initial state)
does `summary` receive no new contributions. -/
theorem summarize_error_keeps_usage_list (today start endT : Int)
    (s : UsageState) (h1 : start ≤ endT) (h2 : endT ≤ today) :
    (summarize today start endT (Except.error ()) s).messages =
      [UsageMsg.errorUnableUsage] ∧
    (summarize today start endT (Except.error ()) s).state.usage_list =
      s.usage_list ∧
    (summarize today start endT (Except.error ()) s).state.summary =
      aggregate s.usage_list s.summary ∧
    (s.usage_list = [] →
      (summarize today start endT (Except.error ()) s).state.summary =
        s.summary) := by
  refine ⟨by simp [summarize, h1, h2], by simp [summarize, h1, h2],
    by simp [summarize, h1, h2], fun h0 => ?_⟩
  simp [summarize, h1, h2, h0, aggregate]

/-- Witness for C6's amended theorem at a concrete input. -/
theorem summarize_error_keeps_usage_list_witness :
    (summarize 10 0 5 (Except.error ()) ⟨[("ram", 4)], []⟩).messages =
      [UsageMsg.errorUnableUsage] ∧
    (summarize 10 0 5 (Except.error ()) ⟨[("ram", 4)], []⟩).state.usage_list =
      ([] : List ProjectUsageData) ∧
    (summarize 10 0 5 (Except.error ()) ⟨[("ram", 4)], []⟩).state.summary =
      aggregate [] [("ram", 4)] ∧
    (([] : List ProjectUsageData) = [] →
      (summarize 10 0 5 (Except.error ()) ⟨[("ram", 4)], []⟩).state.summary =
        [("ram", 4)]) :=
  summarize_error_keeps_usage_list 10 0 5 ⟨[("ram", 4)], []⟩
    (by decide) (by decide)

/-! ### Date-range bucketing: `get_start`, `get_end`, `get_date_range`

Naive/aware UTC datetimes are modelled as natural numbers of seconds since
0001-01-01 00:00:00; `timezone.make_aware` preserves the instant and is an
identity here. -/

/-- Seconds per day. -/
def secondsPerDay : Nat := 86400

/-- Python's `calendar.isleap(year)`. -/
def isLeap (y : Nat) : Bool :=
  y % 4 == 0 && (y % 100 != 0 || y % 400 == 0)

/-- `calendar.mdays`: day counts per month, index 0 unused. -/
def monthDays : List Nat := [0, 31, 28, 31, 30, 31, 30, 31, 31, 30, 31, 30, 31]

/-- `calendar.monthrange(year, month)[1]`: the number of days in the month. -/
def monthrangeDays (y m : Nat) : Nat :=
  if m == 2 && isLeap y then 29 else monthDays.getD m 0

/-- Days in all months of year `y` strictly before month `m`. -/
def daysBeforeMonth (y m : Nat) : Nat :=
  ((List.range m).map (fun i => monthrangeDays y i)).sum

/-- Days in all years strictly before year `y` (proleptic Gregorian). -/
def daysBeforeYear (y : Nat) : Nat :=
  365 * (y - 1) + (y - 1) / 4 - (y - 1) / 100 + (y - 1) / 400

/-- Day index of a calendar date, day 0 being 0001-01-01. -/
def toOrdinalDays (y m d : Nat) : Nat :=
  daysBeforeYear y + daysBeforeMonth y m + (d - 1)

/-- `BaseUsage.get_start(year, month, day)`: the aware UTC datetime at
midnight of the given date. -/
def get_start (year month day : Nat) : Nat :=
  toOrdinalDays year month day * secondsPerDay

/-- `BaseUsage.get_end(year, month, day)`: the start plus the number of days
in the month, truncated to midnight (`datetime.combine` with `time(0, 0, 0)`),
and capped at `timezone.now()` (the `now` argument) when it lies beyond it. -/
def get_end (year month day now : Nat) : Nat :=
  let days_in_month := monthrangeDays year month
  let period := days_in_month * secondsPerDay
  let date_end := ((get_start year month day + period) / secondsPerDay) *
    secondsPerDay
  if date_end > now then now else date_end

/-- The attributes of `BaseUsage` that `get_date_range` caches: `self.start`
and `self.end` exist either both or neither (only `get_date_range` sets them,
and it sets both). -/
structure DateRangeState where
  startEnd : Option (Nat × Nat)
deriving DecidableEq

/-- `BaseUsage.get_date_range()`.  `todayYear`/`todayMonth` model
`self.today`'s components, `now` models the `timezone.now()` sample used by
`get_end`, and `formData` models the validated month/year form: `some (y, m)`
when `form.is_valid()`, `none` otherwise.  Returns the `(start, end)` pair
and the updated object state. -/
def get_date_range (todayYear todayMonth now : Nat)
    (formData : Option (Nat × Nat)) (s : DateRangeState) :
    (Nat × Nat) × DateRangeState :=
  match s.startEnd with
  | some p => (p, s)
  | none =>
    let args :=
      match formData with
      | some ym => ym
      | none => (todayYear, todayMonth)
    let st := get_start args.1 args.2 1
    let en := get_end args.1 args.2 1 now
    ((st, en), { startEnd := some (st, en) })

/-- C7: on a fresh object the first `get_date_range` call returns
`(get_start(y, m, 1), get_end(y, m, 1))` with `(y, m)` from the validated
form when it is valid and from today's date otherwise; every subsequent call
— whatever today's date, clock or form say by then — returns the same cached
pair and leaves the state untouched. -/
theorem get_date_range_caches (todayYear todayMonth now : Nat)
    (formData : Option (Nat × Nat)) :
    (get_date_range todayYear todayMonth now formData ⟨none⟩).1 =
      (get_start (formData.getD (todayYear, todayMonth)).1
          (formData.getD (todayYear, todayMonth)).2 1,
        get_end (formData.getD (todayYear, todayMonth)).1
          (formData.getD (todayYear, todayMonth)).2 1 now) ∧
    ∀ ty2 tm2 now2 formData2,
      get_date_range ty2 tm2 now2 formData2
          (get_date_range todayYear todayMonth now formData ⟨none⟩).2 =
        ((get_date_range todayYear todayMonth now formData ⟨none⟩).1,
          (get_date_range todayYear todayMonth now formData ⟨none⟩).2) := by
  cases formData <;> simp [get_date_range]

/-- C8: for every valid month, `get_end` never returns a time in the future:
its result is capped at the `timezone.now()` sample taken during the call. -/
theorem get_end_le_now (year month now : Nat)
    (h1 : 1 ≤ month) (h2 : month ≤ 12) :
    get_end year month 1 now ≤ now := by
  unfold get_end
  simp only []
  split
  · exact Nat.le_refl now
  · omega

/-- Witness for C8: February 2024 against a clock of 100 seconds. -/
theorem get_end_le_now_witness : get_end 2024 2 1 100 ≤ 100 :=
  get_end_le_now 2024 2 100 (by decide) (by decide)

/-! ### CSV rendering: `CsvDataMixin`, `BaseCsvResponse`,
`BaseCsvStreamingResponse`

Text is modelled as `String`; `CsvDataMixin.encode` (utf-8 encoding of
`unicode(value)`) is the identity embedding on this model. -/

/-- `CsvDataMixin.encode`. -/
def encode (s : String) : String := s

/-- Whether Python's `csv.writer` (default dialect, `QUOTE_MINIMAL`) must
quote the field: it contains the delimiter, the quote char, or a newline. -/
def csvQuoteNeeded (s : String) : Bool :=
  s.toList.any (fun c => c == ',' || c == '"' || c == '\n' || c == '\r')

/-- One CSV field under the default dialect: quoted with doubled inner
quotes when needed, verbatim otherwise. -/
def csvField (s : String) : String :=
  if csvQuoteNeeded s then "\"" ++ s.replace "\"" "\"\"" ++ "\"" else s

/-- One CSV record under the default dialect: comma-separated fields
terminated by CRLF. -/
def csvRow (fields : List String) : String :=
  String.intercalate "," (fields.map csvField) ++ "\r\n"

/-- What `BaseCsvResponse` / `BaseCsvStreamingResponse` share: the rendered
header template (`self.header`, `none` when no template was given) and the
optional `columns` attribute of `CsvDataMixin`. -/
structure CsvConfig where
  header : Option String
  columns : Option (List String)

/-- The bytes `self.out.write(self.encode(self.header))` contributes:
nothing when `self.header` is `None` or empty (both falsy). -/
def headerPart (cfg : CsvConfig) : String :=
  match cfg.header with
  | some h => if h == "" then "" else encode h
  | none => ""

/-- `CsvDataMixin.write_csv_header()`: the `DictWriter` writes its (encoded)
fieldnames as a record when columns are defined; otherwise nothing. -/
def writeCsvHeader (cfg : CsvConfig) : String :=
  match cfg.columns with
  | some cols => csvRow (cols.map encode)
  | none => ""

/-- `CsvDataMixin.write_csv_row(args)`: with columns defined, the row's
encoded values are zipped against the fieldnames (missing values become the
`DictWriter` rest value `''`, extra values are dropped by `zip`); without
columns, the encoded values are written as given. -/
def writeCsvRow (cfg : CsvConfig) (row : List String) : String :=
  match cfg.columns with
  | some cols =>
    csvRow ((List.range cols.length).map (fun i => (row.map encode).getD i ""))
  | none => csvRow (row.map encode)

/-- Concatenation of emitted chunks, in emission order. -/
def concatChunks : List String → String
  | [] => ""
  | c :: cs => c ++ concatChunks cs

/-- `BaseCsvResponse.__init__`: the final `self.content` — the encoded header
if any, then the CSV header row, then one CSV record per element of
`get_row_data()` (the `rows` argument), all buffered in `self.out`. -/
def baseCsvResponseContent (cfg : CsvConfig) (rows : List (List String)) :
    String :=
  headerPart cfg ++ writeCsvHeader cfg ++
    concatChunks (rows.map (writeCsvRow cfg))

/-- `BaseCsvStreamingResponse.get_content()`: first chunk is the buffer after
the header writes (`self.buffer()` empties `self.out`), then one chunk per
row of `get_row_data()`. -/
def baseCsvStreamingChunks (cfg : CsvConfig) (rows : List (List String)) :
    List String :=
  (headerPart cfg ++ writeCsvHeader cfg) :: rows.map (writeCsvRow cfg)

/-- C2: the buffered and the streamed CSV renderings produce identical bytes:
for the same header, columns and rows, concatenating every chunk yielded by
`BaseCsvStreamingResponse.get_content()` gives exactly the `content` that
`BaseCsvResponse.__init__` builds. -/
theorem streaming_csv_eq_buffered (cfg : CsvConfig)
    (rows : List (List String)) :
    concatChunks (baseCsvStreamingChunks cfg rows) =
      baseCsvResponseContent cfg rows := by
  simp [baseCsvStreamingChunks, baseCsvResponseContent, concatChunks,
    String.append_assoc]

/-! ### Hadoop dashboard table actions (`tables.py`)

The external `ehoclient` calls an action performs are its observable effect;
an action is modelled as the list of such calls it makes, in order. -/

/-- Calls into the external cluster-management client library `ehoclient`. -/
inductive EhoClientCall where
  | terminate_cluster (cluster_id : String)
  | delete_template (template_id : String)
deriving DecidableEq

/-- `TerminateCluster.action(self, request, cluster_id)`:
`terminate_cluster(cluster_id)`. -/
def TerminateCluster.action (request : Unit) (cluster_id : String) :
    List EhoClientCall :=
  [EhoClientCall.terminate_cluster cluster_id]

/-- `DeleteTemplate.action(self, request, template_id)`:
`delete_template(template_id)`. -/
def DeleteTemplate.action (request : Unit) (template_id : String) :
    List EhoClientCall :=
  [EhoClientCall.delete_template template_id]

/-- `CreateCluster.action(self, request, datum_id)`: `pass`. -/
def CreateCluster.action (request : Unit) (datum_id : String) :
    List EhoClientCall :=
  []

/-- `CreateCluster.url`. -/
def CreateCluster.url : String := "horizon:project:hadoop:create_cluster"

/-- C3: the terminate-cluster and delete-template actions delegate to the
external client library and do nothing else: their effect is exactly the one
corresponding `ehoclient` call on the given id. -/
theorem cluster_template_actions_delegate (request : Unit)
    (cluster_id template_id : String) :
    TerminateCluster.action request cluster_id =
      [EhoClientCall.terminate_cluster cluster_id] ∧
    DeleteTemplate.action request template_id =
      [EhoClientCall.delete_template template_id] :=
  ⟨rfl, rfl⟩

/-- C4 counterexample: `CreateCluster`'s `action` body is `pass` — executing
it performs no `ehoclient` call at all, so it does not delegate to any
cluster-management client operation. -/
theorem createCluster_action_makes_no_call :
    ¬ ∃ c : EhoClientCall, c ∈ CreateCluster.action () "cluster-1" := by
  simp [CreateCluster.action]

/-- C4 (amended): `CreateCluster` is a `LinkAction` pointing at the
create-cluster workflow URL; its `action` method performs no
cluster-management client call. -/
theorem createCluster_link_only (request : Unit) (datum_id : String) :
    CreateCluster.action request datum_id = [] ∧
    CreateCluster.url = "horizon:project:hadoop:create_cluster" :=
  ⟨rfl, rfl⟩

/-- A cluster instance as `TerminateInstance.allowed` inspects it. -/
structure HadoopInstance where
  status : String
deriving DecidableEq

/-- `TerminateInstance.allowed(self, request, instance=None)`: with a truthy
instance, `instance.status not in ("PAUSED", "SUSPENDED")`; otherwise
`True`. -/
def TerminateInstance.allowed (request : Unit)
    (inst : Option HadoopInstance) : Bool :=
  match inst with
  | some i => !(["PAUSED", "SUSPENDED"].contains i.status)
  | none => true

/-- C10: `TerminateInstance.allowed` returns `True` exactly when no instance
is given or the instance's status is neither "PAUSED" nor "SUSPENDED"; in
particular it is always allowed with no specific instance. -/
theorem terminateInstance_allowed_iff (inst : Option HadoopInstance) :
    TerminateInstance.allowed () inst = true ↔
      (inst = none ∨ ∃ i, inst = some i ∧
        i.status ≠ "PAUSED" ∧ i.status ≠ "SUSPENDED") := by
  cases inst with
  | none => simp [TerminateInstance.allowed]
  | some i =>
    simp [TerminateInstance.allowed, List.contains, not_or]

/-! ### `ProjectUsage.get_usage_list` -/

/-- One entry of `usage.server_usages`, a dict: `ended_at` is `None` or a
timestamp string (falsy when `None` or empty), `uptime` is in seconds, and
`uptime_at` is the key the loop adds. -/
structure ServerUsage where
  ended_at : Option String
  uptime : Int
  uptime_at : Option Int
deriving DecidableEq

/-- Python truthiness of an optional string (`None` and `''` are falsy). -/
def truthyStr : Option String → Bool
  | none => false
  | some s => s != ""

/-- The usage object `api.nova.usage_get` returns: `server_usages` is `none`
when the attribute does not exist (no instances). -/
structure NovaUsage where
  server_usages : Option (List ServerUsage)
deriving DecidableEq

/-- `server_usage['uptime_at'] = now - timedelta(seconds=server_usage['uptime'])`. -/
def withUptimeAt (now : Int) (su : ServerUsage) : ServerUsage :=
  { su with uptime_at := some (now - su.uptime) }

/-- The `for server_usage in usage.server_usages` loop: set `uptime_at`, then
append to `instances` unless the entry is terminated (`ended_at` truthy) and
`show_terminated` is falsy (the `terminated_instances` list is never read). -/
def collectInstances (show_terminated : Bool) (now : Int) :
    List ServerUsage → List ServerUsage
  | [] => []
  | su :: rest =>
    let su2 := withUptimeAt now su
    if truthyStr su2.ended_at && !show_terminated then
      collectInstances show_terminated now rest
    else
      su2 :: collectInstances show_terminated now rest

/-- `ProjectUsage.get_usage_list(start, end)`: fetch the usage object, walk
`server_usages` when the attribute exists, overwrite `usage.server_usages`
with the retained instances, and return the one-element tuple `(usage,)`.
`show_terminated` models `request.GET.get('show_terminated',
self.show_terminated)`; `now` models `self.today`. -/
def ProjectUsage.get_usage_list (show_terminated : Bool) (now : Int)
    (usage : NovaUsage) : List NovaUsage :=
  let instances :=
    match usage.server_usages with
    | none => []
    | some l => collectInstances show_terminated now l
  [{ usage with server_usages := some instances }]

lemma collectInstances_eq_filter_map (show_terminated : Bool) (now : Int)
    (l : List ServerUsage) :
    collectInstances show_terminated now l =
      (l.filter
          (fun su => show_terminated || !truthyStr su.ended_at)).map
        (withUptimeAt now) := by
  induction l with
  | nil => simp [collectInstances]
  | cons su rest ih =>
    by_cases ht : truthyStr su.ended_at <;>
      cases show_terminated <;>
        simp [collectInstances, withUptimeAt, List.filter, ht, ih]

/-- C9: `ProjectUsage.get_usage_list` returns a one-element tuple; its
usage's `server_usages` holds exactly the entries whose `ended_at` is falsy
when `show_terminated` is falsy and all entries when it is truthy, each
retained entry gaining `uptime_at = now - uptime` seconds; a usage object
without the `server_usages` attribute gets the empty list. -/
theorem projectUsage_get_usage_list_spec (show_terminated : Bool) (now : Int)
    (usage : NovaUsage) :
    ProjectUsage.get_usage_list show_terminated now usage =
      [{ usage with server_usages := some (
          ((usage.server_usages.getD []).filter
              (fun su => show_terminated || !truthyStr su.ended_at)).map
            (withUptimeAt now)) }] := by
  cases h : usage.server_usages <;>
    simp [ProjectUsage.get_usage_list, h, collectInstances_eq_filter_map,
      collectInstances]

end EhoHorizon
